import Mathlib

/-!
Verification development for the gia repository: a REST client library for
managing disconnected applications in an identity-governance API.

The embedding below translates the Python sources under src/gia into Lean:
JSON-like Python values become the inductive type Val, Python dicts become
insertion-ordered association lists with in-place-replace assignment,
exceptions become an inductive error type threaded through Except, and every
stateful operation is written as explicit state passing. Network interactions
(the remote IGA server, the OAuth2 token endpoint) are modelled as explicit
environments supplied to the functions that drive them, together with a trace
of the calls issued, so that call-count properties can be stated.
-/

set_option autoImplicit false

namespace Gia

/-- Val models a Python/JSON value as it flows through the client: strings,
booleans, integers, null, arrays and objects (dicts). Objects are
insertion-ordered association lists, mirroring Python dict semantics. -/
inductive Val where
  | null : Val
  | str : String → Val
  | bool : Bool → Val
  | int : Int → Val
  | list : List Val → Val
  | obj : List (String × Val) → Val

/-- pyQuote wraps a string in single-quote characters (written via character
code 39), as Python repr does for strings. -/
def pyQuote (s : String) : String :=
  String.singleton (Char.ofNat 39) ++ s ++ String.singleton (Char.ofNat 39)

/-- pyRepr models the Python repr() rendering of a value, as used when a
value is interpolated into an f-string inside a container. -/
def pyRepr : Val → String
  | .null => "None"
  | .str s => pyQuote s
  | .bool b => if b then "True" else "False"
  | .int n => toString n
  | .list vs => "[" ++ String.intercalate ", " (vs.attach.map (fun x => pyRepr x.1)) ++ "]"
  | .obj kvs =>
      "\x7b" ++ String.intercalate ", "
        (kvs.attach.map (fun x => pyQuote x.1.1 ++ ": " ++ pyRepr x.1.2)) ++ "\x7d"
decreasing_by
  · have h := List.sizeOf_lt_of_mem x.2
    simp only [Val.list.sizeOf_spec]
    omega
  · have h := List.sizeOf_lt_of_mem x.2
    obtain ⟨⟨a, b⟩, hx⟩ := x
    simp only [Val.obj.sizeOf_spec, Prod.mk.sizeOf_spec] at *
    omega

/-- pyStr models Python str() as used by f-string interpolation: strings are
rendered verbatim, everything else via repr. -/
def pyStr : Val → String
  | .str s => s
  | v => pyRepr v

/-- pyFalsy models Python truthiness: None, False, 0, the empty string, the
empty list and the empty dict are falsy. -/
def pyFalsy : Val → Bool
  | .null => true
  | .bool b => !b
  | .int n => n == 0
  | .str s => s.isEmpty
  | .list vs => vs.isEmpty
  | .obj kvs => kvs.isEmpty

/-- assocGet? looks a key up in an insertion-ordered association list,
mirroring Python dict lookup. -/
def assocGet? {α : Type} : List (String × α) → String → Option α
  | [], _ => none
  | (k, v) :: rest, key => if k = key then some v else assocGet? rest key

/-- assocHas mirrors the Python membership test (key in dict). -/
def assocHas {α : Type} (d : List (String × α)) (key : String) : Bool :=
  (assocGet? d key).isSome

/-- assocSet mirrors Python dict assignment d[key] = v: the first binding of
the key is replaced in place, otherwise the pair is appended, preserving
insertion order. -/
def assocSet {α : Type} : List (String × α) → String → α → List (String × α)
  | [], key, v => [(key, v)]
  | (k, w) :: rest, key, v =>
      if k = key then (key, v) :: rest else (k, w) :: assocSet rest key v

/-- assocUpdate mirrors Python dict.update(extra): each binding of extra is
assigned in order, so a repeated key keeps the last value (last-write-wins). -/
def assocUpdate {α : Type} (d extra : List (String × α)) : List (String × α) :=
  extra.foldl (fun acc p => assocSet acc p.1 p.2) d

/-- lastBinding? returns the value of the last binding of a key in a list of
bindings, which is the value dict(bindings) would hold for that key. -/
def lastBinding? {α : Type} (d : List (String × α)) (key : String) : Option α :=
  assocGet? d.reverse key

/-- keyIn states that a dict contains a key. -/
def keyIn (d : List (String × Val)) (key : String) : Bool :=
  assocHas d key

/-- PyErrClass names the Python exception class of a raised error, so that
claims about distinguishing errors by class (except clauses) can be stated. -/
inductive PyErrClass where
  | valueErrorCls
  | keyErrorCls
  | typeErrorCls
  | jsonDecodeErrorCls
  | igaClientErrorCls
  | igaAuthErrorCls
  | igaNotFoundErrorCls
deriving DecidableEq

/-- PyErr models the exceptions raised by the library (src/gia/exceptions.py
plus the builtin exceptions the source can raise). The three IGA errors carry
message, status_code and details exactly as the IGAClientError constructor
stores them; IGAAuthError and IGANotFoundError are subclasses that reuse it. -/
inductive PyErr where
  | valueError (message : String)
  | keyError (key : String)
  | typeError (message : String)
  | jsonDecodeError
  | igaClientError (message : Val) (status_code : Option Nat) (details : Val)
  | igaAuthError (message : Val) (status_code : Option Nat) (details : Val)
  | igaNotFoundError (message : Val) (status_code : Option Nat) (details : Val)

/-- cls gives the exact Python class of an error value. -/
def PyErr.cls : PyErr → PyErrClass
  | .valueError _ => .valueErrorCls
  | .keyError _ => .keyErrorCls
  | .typeError _ => .typeErrorCls
  | .jsonDecodeError => .jsonDecodeErrorCls
  | .igaClientError _ _ _ => .igaClientErrorCls
  | .igaAuthError _ _ _ => .igaAuthErrorCls
  | .igaNotFoundError _ _ _ => .igaNotFoundErrorCls

/-- isNotFoundErr tests for the IGANotFoundError class, mirroring the except
IGANotFoundError clause in DisconnectedApplication.push. -/
def isNotFoundErr : PyErr → Bool
  | .igaNotFoundError _ _ _ => true
  | _ => false

/-- pySubscript models Python subscripting value[key]: a KeyError when the key
is absent from a dict, a TypeError when the value is not a dict. -/
def pySubscript (v : Val) (key : String) : Except PyErr Val :=
  match v with
  | .obj d =>
      match assocGet? d key with
      | some x => .ok x
      | none => .error (.keyError key)
  | _ => .error (.typeError "value is not subscriptable")

end Gia

namespace Gia

/-! Token lifecycle, from src/gia/auth.py (OAuth2ClientCredentials).
Real time is a float in the source; the embedding uses integers, which
preserves every order comparison the code performs. -/

/-- TOKEN_EXPIRY_BUFFER_SECONDS from auth.py line 18. -/
def TOKEN_EXPIRY_BUFFER_SECONDS : Int := 30

/-- TokenState models the mutable token cache of OAuth2ClientCredentials:
the fields _access_token (None initially) and _expires_at (0.0 initially). -/
structure TokenState where
  access_token : Option String
  expires_at : Int

/-- initialTokenState is the state set up by the constructor of
OAuth2ClientCredentials. -/
def initialTokenState : TokenState := ⟨none, 0⟩

/-- TokenResponse models the JSON body returned by the token endpoint on a
successful grant: an access_token and an optional expires_in. -/
structure TokenResponse where
  access_token : String
  expires_in : Option Int

/-- is_expired is OAuth2ClientCredentials._is_expired: true when no token is
cached, or when now has reached expires_at minus the 30 second buffer. -/
def is_expired (st : TokenState) (now : Int) : Bool :=
  match st.access_token with
  | none => true
  | some _ => decide (now ≥ st.expires_at - TOKEN_EXPIRY_BUFFER_SECONDS)

/-- fetch_token is OAuth2ClientCredentials._fetch_token on a successful grant
response: store the access token and set expires_at to now plus expires_in,
defaulting expires_in to 3600 when the server omits it. -/
def fetch_token (now : Int) (resp : TokenResponse) : TokenState :=
  ⟨some resp.access_token, now + resp.expires_in.getD 3600⟩

/-- AccessOutcome records one evaluation of the access_token property: the
resulting cache state, the token returned, and how many grant requests were
issued during the access (0 or 1). -/
structure AccessOutcome where
  state : TokenState
  token : String
  grantRequests : Nat

/-- accessToken is the access_token property of OAuth2ClientCredentials: if
the cached token is stale, fetch a fresh one (issuing exactly one grant
request), otherwise return the cached token with no request. The grant
response the endpoint would return is passed in as resp. -/
def accessToken (st : TokenState) (now : Int) (resp : TokenResponse) : AccessOutcome :=
  match st.access_token with
  | none => ⟨fetch_token now resp, resp.access_token, 1⟩
  | some t =>
      if now ≥ st.expires_at - TOKEN_EXPIRY_BUFFER_SECONDS then
        ⟨fetch_token now resp, resp.access_token, 1⟩
      else
        ⟨st, t, 0⟩

end Gia

namespace Gia

/-! Pagination, from src/gia/client.py (IGAClient.api_get_paginated).
The server is modelled as a function from the offset query parameter to the
page body, reduced to the two fields the loop reads: the result array and the
optional totalCount. The loop in the source can diverge against a
pathological server, so the embedding takes a fuel argument; none signals
that the fuel ran out before the loop stopped. -/

/-- DEFAULT_PAGE_SIZE from client.py line 15. -/
def DEFAULT_PAGE_SIZE : Nat := 50

/-- paginate is the while loop of api_get_paginated: request the page at the
current offset, append its result array, then stop when the page is empty or
the accumulator has reached the reported totalCount (absent totalCount reads
as 0 via body.get), or when a nonzero max_pages ceiling has been reached;
otherwise advance the offset by the page size and continue. The returned pair
is the combined result list and the number of page requests issued. -/
def paginate (getPage : Nat → List Val × Option Nat) (page_size : Nat)
    (max_pages : Option Nat) :
    Nat → Nat → List Val → Nat → Option (List Val × Nat)
  | _, _, _, 0 => none
  | offset, pages_fetched, all_results, fuel + 1 =>
    let page := getPage offset
    let results := page.1
    let all_results := all_results ++ results
    let pages_fetched := pages_fetched + 1
    let total := page.2.getD 0
    if results.isEmpty || decide (all_results.length ≥ total) then
      some (all_results, pages_fetched)
    else if (match max_pages with
             | some m => decide (m ≠ 0) && decide (pages_fetched ≥ m)
             | none => false) then
      some (all_results, pages_fetched)
    else
      paginate getPage page_size max_pages (offset + page_size) pages_fetched all_results fuel

/-- api_get_paginated drives the pagination loop from the caller-supplied
starting offset (default 0 in the source) with an empty accumulator. -/
def api_get_paginated (getPage : Nat → List Val × Option Nat) (page_size : Nat)
    (offset : Nat) (max_pages : Option Nat) (fuel : Nat) : Option (List Val × Nat) :=
  paginate getPage page_size max_pages offset 0 [] fuel

/-- nominalServer models a well-behaved list endpoint holding the given items:
a request at a given offset returns the next page_size items from that offset
and reports the exact total count. -/
def nominalServer (items : List Val) (page_size : Nat) : Nat → List Val × Option Nat :=
  fun offset => ((items.drop offset).take page_size, some items.length)

end Gia

namespace Gia

/-! Retry configuration, from src/gia/client.py lines 15 to 18 and
IGAClient._build_session. -/

/-- MAX_RETRIES from client.py line 16, passed as the total argument of the
urllib3 Retry object. -/
def MAX_RETRIES : Nat := 3

/-- RETRY_BACKOFF from client.py line 17, passed as backoff_factor. -/
def RETRY_BACKOFF : ℚ := 1 / 2

/-- RETRY_STATUS_CODES from client.py line 18, passed as status_forcelist. -/
def RETRY_STATUS_CODES : List Nat := [429, 500, 502, 503, 504]

/-- ALLOWED_METHODS is the allowed_methods list passed to Retry in
IGAClient._build_session. -/
def ALLOWED_METHODS : List String := ["GET", "POST", "PUT", "DELETE"]

/-- RetryPolicy holds the fields of the urllib3 Retry object that
_build_session configures. -/
structure RetryPolicy where
  total : Nat
  backoff_factor : ℚ
  status_forcelist : List Nat
  allowed_methods : List String

/-- buildSessionRetry is the Retry object constructed in
IGAClient._build_session and mounted on the session for both schemes. -/
def buildSessionRetry : RetryPolicy :=
  ⟨MAX_RETRIES, RETRY_BACKOFF, RETRY_STATUS_CODES, ALLOWED_METHODS⟩

/-- AttemptOutcome is what one HTTP attempt produces at the transport layer:
a response with a status code, or a transport-level connection error. -/
inductive AttemptOutcome where
  | status (code : Nat)
  | connError

/-- isRetryableOutcome states when the configured Retry object retries an
attempt: always for a connection error, and for a response status exactly
when the method is in allowed_methods and the status is in status_forcelist. -/
def isRetryableOutcome (p : RetryPolicy) (method : String) : AttemptOutcome → Bool
  | .connError => true
  | .status c => p.allowed_methods.contains method && p.status_forcelist.contains c

/-- Modelled from the spec: the retry loop that the urllib3 Retry object
mounted in IGAClient._build_session performs. The urllib3 library is a
dependency whose source is not under src/; per its documentation the total
field counts retries that may still be performed, so each retryable outcome
consumes one unit of budget and the request is re-sent, and a retryable
outcome with zero budget left raises MaxRetryError. A non-retryable outcome
returns the response to the caller immediately. The function returns the
number of requests sent on the wire, given the outcome of each attempt. -/
def retryLoop (p : RetryPolicy) (method : String) (outcomes : Nat → AttemptOutcome) :
    Nat → Nat → Nat
  | 0, i => i + 1
  | budget + 1, i =>
      if isRetryableOutcome p method (outcomes i) then
        retryLoop p method outcomes budget (i + 1)
      else
        i + 1

/-- attemptsSent is the number of requests a single logical call sends through
the session, starting with the full retry budget. -/
def attemptsSent (p : RetryPolicy) (method : String) (outcomes : Nat → AttemptOutcome) : Nat :=
  retryLoop p method outcomes p.total 0

/-- BACKOFF_MAX is the urllib3 ceiling on a single backoff sleep. -/
def BACKOFF_MAX : ℚ := 120

/-- Modelled from the spec: get_backoff_time of the urllib3 Retry object (the
dependency is not under src/). Per its documentation the sleep before a retry
is backoff_factor times 2 to the power (consecutive_errors - 1), zero before
the first retry, capped at BACKOFF_MAX. -/
def get_backoff_time (p : RetryPolicy) (consecutive_errors : Nat) : ℚ :=
  if consecutive_errors ≤ 1 then 0
  else min (p.backoff_factor * 2 ^ (consecutive_errors - 1)) BACKOFF_MAX

end Gia

namespace Gia

/-! Response normalization, from src/gia/client.py
(IGAClient._handle_response). -/

/-- HttpResponse models the requests.Response object as _handle_response
reads it: the status code, whether the raw body is empty (the truthiness of
resp.content), the decoded text, and the result of resp.json
(none when the body is not valid JSON, in which case resp.json raises). -/
structure HttpResponse where
  status_code : Nat
  content_empty : Bool
  text : String
  json? : Option Val

/-- handle_response is IGAClient._handle_response: a 404 raises
IGANotFoundError; any other status of at least 400 raises IGAClientError
whose message is taken from the message key of the JSON body, else its error
key, else the raw text (any exception while reading the body, including a
non-dict JSON body or a parse failure, falls back to the raw text and empty
details); a 204 or empty body yields an empty dict; otherwise the decoded
JSON body is returned (a parse failure there propagates). The IGAClientError
constructor replaces falsy details with an empty list. -/
def handle_response (resp : HttpResponse) : Except PyErr Val :=
  if resp.status_code = 404 then
    .error (.igaNotFoundError (.str "Resource not found") (some 404) (.list []))
  else if resp.status_code ≥ 400 then
    match resp.json? with
    | some (.obj body) =>
        let message :=
          match assocGet? body "message" with
          | some m => m
          | none =>
              match assocGet? body "error" with
              | some e => e
              | none => .str resp.text
        let details :=
          match assocGet? body "details" with
          | some d => d
          | none => .list []
        .error (.igaClientError message (some resp.status_code)
          (if pyFalsy details then .list [] else details))
    | _ => .error (.igaClientError (.str resp.text) (some resp.status_code) (.list []))
  else if resp.status_code = 204 || resp.content_empty then
    .ok (.obj [])
  else
    match resp.json? with
    | some v => .ok v
    | none => .error .jsonDecodeError

end Gia

namespace Gia

/-! Application builder, from src/gia/templates.py. -/

/-- ObjectTypeDefinition from templates.py: id, type (account or resource)
and the properties dict. -/
structure ObjectTypeDefinition where
  id : String
  type : String
  properties : List (String × Val)

/-- to_dict of ObjectTypeDefinition. -/
def ObjectTypeDefinition.to_dict (ot : ObjectTypeDefinition) : Val :=
  .obj [("id", .str ot.id), ("type", .str ot.type), ("properties", .obj ot.properties)]

/-- FileUpload from templates.py: a local path and the object type the file
populates. -/
structure FileUpload where
  file_path : String
  object_type : String

/-- DisconnectedApplication from templates.py: the in-memory application
model. The private dict _object_types is an insertion-ordered association
list from id to definition, _file_uploads a list in registration order, and
extra_fields the keyword-argument dict captured by the constructor. -/
structure DisconnectedApplication where
  name : String
  description : String
  owner_ids : List String
  icon : String
  extra_fields : List (String × Val)
  object_types : List (String × ObjectTypeDefinition)
  file_uploads : List FileUpload

/-- dupObjectTypeMessage is the ValueError message for a duplicate object
type id in add_object_type. -/
def dupObjectTypeMessage (id : String) : String :=
  "Object type " ++ pyQuote id ++ " already defined"

/-- DisconnectedApplication.add_object_type: raise ValueError when the id is
already defined, leaving the model as it was, otherwise record the new
definition under its id and return it. The returned state is the model after
the call (unchanged when the error is raised, since the source raises before
assigning). -/
def DisconnectedApplication.add_object_type (app : DisconnectedApplication)
    (id ty : String) (properties : List (String × Val)) :
    DisconnectedApplication × Except PyErr ObjectTypeDefinition :=
  if assocHas app.object_types id then
    (app, .error (.valueError (dupObjectTypeMessage id)))
  else
    let obj : ObjectTypeDefinition := ⟨id, ty, properties⟩
    ({ app with object_types := assocSet app.object_types id obj }, .ok obj)

/-- undefinedObjectTypeMessage is the ValueError message raised by
add_file_upload for an object type that has not been defined. -/
def undefinedObjectTypeMessage (object_type : String) : String :=
  "Object type " ++ pyQuote object_type ++ " not defined. Call add_object_type("
    ++ pyQuote object_type ++ ", ...) first."

/-- DisconnectedApplication.add_file_upload: raise ValueError when the object
type has not been defined, otherwise append the upload in registration
order. -/
def DisconnectedApplication.add_file_upload (app : DisconnectedApplication)
    (file_path object_type : String) :
    DisconnectedApplication × Except PyErr FileUpload :=
  if !assocHas app.object_types object_type then
    (app, .error (.valueError (undefinedObjectTypeMessage object_type)))
  else
    let upload : FileUpload := ⟨file_path, object_type⟩
    ({ app with file_uploads := app.file_uploads ++ [upload] }, .ok upload)

/-- applicationBasePayload is the initial payload dict of
to_application_payload: the five fixed discriminator fields marking a
disconnected, non-authoritative application with the sentinel datasource. -/
def applicationBasePayload (app : DisconnectedApplication) : List (String × Val) :=
  [("name", Val.str app.name), ("description", Val.str app.description),
   ("isDisconnected", Val.bool true), ("datasourceId", Val.str "disconnected"),
   ("authoritative", Val.bool false)]

/-- objectTypesDict is the object_types dict to_application_payload rebuilds
from the definitions, keyed by each definition id. -/
def objectTypesDict (app : DisconnectedApplication) : List (String × Val) :=
  (app.object_types.map Prod.snd).foldl
    (fun acc ot => assocSet acc ot.id ot.to_dict) []

/-- prePayload is the payload dict built by to_application_payload before the
final update with extra_fields: on the base payload, ownerIds is set when
owner_ids is truthy, icon when icon is truthy, and objectTypes when the
rebuilt object-types dict is truthy. -/
def prePayload (app : DisconnectedApplication) : List (String × Val) :=
  let payload1 :=
    if app.owner_ids.isEmpty then applicationBasePayload app
    else assocSet (applicationBasePayload app) "ownerIds" (Val.list (app.owner_ids.map Val.str))
  let payload2 :=
    if app.icon = "" then payload1
    else assocSet payload1 "icon" (Val.str app.icon)
  if (objectTypesDict app).isEmpty then payload2
  else assocSet payload2 "objectTypes" (Val.obj (objectTypesDict app))

/-- to_application_payload from templates.py: the fixed-and-conditional
payload, then payload.update(extra_fields) merging the extra fields last. -/
def to_application_payload (app : DisconnectedApplication) : List (String × Val) :=
  assocUpdate (prePayload app) app.extra_fields

end Gia

namespace Gia

/-! Push orchestration, from src/gia/templates.py
(DisconnectedApplication.push) over the ApplicationsAPI wrappers of
src/gia/applications.py. The remote system is modelled as an environment of
functions, one per wrapper the push path calls; each call is recorded in a
trace so that call-count properties can be stated. An error value returned
by an environment function models that wrapper raising, and push propagates
it exactly where the source would. -/

/-- ApiCall records one remote call issued during a push. -/
inductive ApiCall where
  | findByName (name : String)
  | createApplication (payload : List (String × Val))
  | updateApplication (application_id : String) (payload : List (String × Val))
  | getObjectType (application_id object_type_id : String)
  | updateObjectType (application_id object_type_id : String) (payload : Val)
  | addObjectType (application_id : String) (payload : Val)
  | uploadFile (application_id file_path object_type : String)

/-- RemoteAPI is the environment of remote operations push drives. The name
lookup is modelled as completing and returning its optional match (a failure
inside it would propagate before any other call); every other operation may
either return a body or raise. -/
structure RemoteAPI where
  find_by_name : String → Option Val
  create_application : List (String × Val) → Except PyErr Val
  update_application : String → List (String × Val) → Except PyErr Val
  get_object_type : String → String → Except PyErr Val
  update_object_type : String → String → Val → Except PyErr Val
  add_object_type : String → Val → Except PyErr Val
  upload_file : String → String → String → Except PyErr Val

/-- PushResult from templates.py. -/
structure PushResult where
  application_id : String
  application_response : Val
  object_type_responses : List (String × Val)
  upload_responses : List Val

/-- PushOutcome pairs what push returns or raises with the trace of remote
calls it issued and the warnings it emitted. -/
structure PushOutcome where
  result : Except PyErr PushResult
  calls : List ApiCall
  warnings : List String

/-- conflictMessage is the IGAClientError message raised on a non-upsert
conflict, with the existing id rendered the way the f-string renders it. -/
def conflictMessage (name rendered_id : String) : String :=
  "Application " ++ pyQuote name ++ " already exists (id=" ++ rendered_id
    ++ "). Set upsert=True to update."

/-- warnMessage is the warning emitted on the upsert path. -/
def warnMessage (name rendered_id : String) : String :=
  "Application " ++ pyQuote name ++ " already exists (id=" ++ rendered_id
    ++ "). Updating."

/-- reconcileStep is the body of the object-type loop in push for a single
definition: try to get the object type, then update it; an IGANotFoundError
raised by either of those is caught and routes to an add call; any other
error, and any error of the add itself, propagates. The second component is
the trace of calls issued during the step. -/
def reconcileStep (api : RemoteAPI) (app_id : String) (ot : ObjectTypeDefinition) :
    Except PyErr Val × List ApiCall :=
  match api.get_object_type app_id ot.id with
  | .ok _ =>
      match api.update_object_type app_id ot.id ot.to_dict with
      | .ok resp =>
          (.ok resp, [.getObjectType app_id ot.id, .updateObjectType app_id ot.id ot.to_dict])
      | .error e =>
          if isNotFoundErr e then
            match api.add_object_type app_id ot.to_dict with
            | .ok resp =>
                (.ok resp, [.getObjectType app_id ot.id,
                  .updateObjectType app_id ot.id ot.to_dict, .addObjectType app_id ot.to_dict])
            | .error e2 =>
                (.error e2, [.getObjectType app_id ot.id,
                  .updateObjectType app_id ot.id ot.to_dict, .addObjectType app_id ot.to_dict])
          else
            (.error e, [.getObjectType app_id ot.id, .updateObjectType app_id ot.id ot.to_dict])
  | .error e =>
      if isNotFoundErr e then
        match api.add_object_type app_id ot.to_dict with
        | .ok resp => (.ok resp, [.getObjectType app_id ot.id, .addObjectType app_id ot.to_dict])
        | .error e2 =>
            (.error e2, [.getObjectType app_id ot.id, .addObjectType app_id ot.to_dict])
      else
        (.error e, [.getObjectType app_id ot.id])

/-- reconcileObjectTypes folds reconcileStep over the definitions in
insertion order, recording each response under its object type id; an error
stops the loop and propagates, keeping the trace issued so far. -/
def reconcileObjectTypes (api : RemoteAPI) (app_id : String)
    (acc : List (String × Val)) :
    List ObjectTypeDefinition → Except PyErr (List (String × Val)) × List ApiCall
  | [] => (.ok acc, [])
  | ot :: rest =>
      match reconcileStep api app_id ot with
      | (.ok resp, cs) =>
          let next := reconcileObjectTypes api app_id (assocSet acc ot.id resp) rest
          (next.1, cs ++ next.2)
      | (.error e, cs) => (.error e, cs)

/-- uploadFiles issues the upload call for each registered file in
registration order, accumulating responses in the same order; the first
failure aborts the remaining uploads and propagates. -/
def uploadFiles (api : RemoteAPI) (app_id : String) :
    List FileUpload → Except PyErr (List Val) × List ApiCall
  | [] => (.ok [], [])
  | u :: rest =>
      match api.upload_file app_id u.file_path u.object_type with
      | .ok resp =>
          match uploadFiles api app_id rest with
          | (.ok rs, cs) => (.ok (resp :: rs), .uploadFile app_id u.file_path u.object_type :: cs)
          | (.error e, cs) => (.error e, .uploadFile app_id u.file_path u.object_type :: cs)
      | .error e => (.error e, [.uploadFile app_id u.file_path u.object_type])

/-- continuePush is the tail of push after the application id is known:
reconcile object types, then upload files, then assemble the PushResult. -/
def continuePush (app : DisconnectedApplication) (api : RemoteAPI) (app_id : String)
    (app_response : Val) (calls : List ApiCall) (warns : List String) : PushOutcome :=
  match reconcileObjectTypes api app_id [] (app.object_types.map Prod.snd) with
  | (.ok otResponses, cs) =>
      match uploadFiles api app_id app.file_uploads with
      | (.ok uploadResponses, us) =>
          ⟨.ok ⟨app_id, app_response, otResponses, uploadResponses⟩,
            calls ++ cs ++ us, warns⟩
      | (.error e, us) => ⟨.error e, calls ++ cs ++ us, warns⟩
  | (.error e, cs) => ⟨.error e, calls ++ cs, warns⟩

/-- createPush is the no-match branch of push: create the application, read
its id from the response by Python subscripting (a missing id key raises
where the source would), and continue with that id. -/
def createPush (app : DisconnectedApplication) (api : RemoteAPI)
    (calls0 : List ApiCall) (app_payload : List (String × Val)) : PushOutcome :=
  let calls1 := calls0 ++ [ApiCall.createApplication app_payload]
  match api.create_application app_payload with
  | .ok app_response =>
      match pySubscript app_response "id" with
      | .ok idv => continuePush app api (pyStr idv) app_response calls1 []
      | .error e => ⟨.error e, calls1, []⟩
  | .error e => ⟨.error e, calls1, []⟩

/-- push is DisconnectedApplication.push: resolve the application by exact
name; when the lookup result is truthy (Python if existing, so a returned
falsy value such as an empty dict routes to create), either raise the
conflict error (upsert false, no further remote call) or warn and issue a
full-replace update against the existing id (upsert true); otherwise create
the application; then reconcile object types and upload files. Reading the
id out of the existing dict follows Python subscripting, so a missing id key
raises where the source would, inside the f-string of either branch. -/
def push (app : DisconnectedApplication) (api : RemoteAPI) (upsert : Bool) : PushOutcome :=
  let calls0 := [ApiCall.findByName app.name]
  let app_payload := to_application_payload app
  match api.find_by_name app.name with
  | some ex =>
      if pyFalsy ex then createPush app api calls0 app_payload
      else if !upsert then
        match pySubscript ex "id" with
        | .ok idv =>
            ⟨.error (.igaClientError (.str (conflictMessage app.name (pyStr idv))) none (.list [])),
              calls0, []⟩
        | .error e => ⟨.error e, calls0, []⟩
      else
        match pySubscript ex "id" with
        | .ok idv =>
            let app_id := pyStr idv
            let warns := [warnMessage app.name app_id]
            let calls1 := calls0 ++ [ApiCall.updateApplication app_id app_payload]
            match api.update_application app_id app_payload with
            | .ok app_response => continuePush app api app_id app_response calls1 warns
            | .error e => ⟨.error e, calls1, warns⟩
        | .error e => ⟨.error e, calls0, []⟩
  | none => createPush app api calls0 app_payload

/-- isCreateAppCall tests for a create-application call in a trace. -/
def isCreateAppCall : ApiCall → Bool
  | .createApplication _ => true
  | _ => false

/-- isUpdateAppCall tests for an update-application call in a trace. -/
def isUpdateAppCall : ApiCall → Bool
  | .updateApplication _ _ => true
  | _ => false

/-- isAddOTCall tests for an add-object-type call in a trace. -/
def isAddOTCall : ApiCall → Bool
  | .addObjectType _ _ => true
  | _ => false

/-- isUpdateOTCall tests for an update-object-type call in a trace. -/
def isUpdateOTCall : ApiCall → Bool
  | .updateObjectType _ _ _ => true
  | _ => false

/-- countCalls counts the calls of a trace satisfying a predicate. -/
def countCalls (p : ApiCall → Bool) (calls : List ApiCall) : Nat :=
  (calls.filter p).length

/-- sampleOT is a concrete object type used by witness statements. -/
def sampleOT : ObjectTypeDefinition := ⟨"__ACCOUNT__", "account", []⟩

/-- sampleApp is a concrete application model holding sampleOT, used by
witness statements. -/
def sampleApp : DisconnectedApplication :=
  ⟨"TestApp", "demo", ["u1"], "icon1", [], [("__ACCOUNT__", sampleOT)], [⟨"accounts.csv", "__ACCOUNT__"⟩]⟩

/-- sampleApi is a concrete remote environment used by witness statements:
the name TestApp resolves to an existing application with id app-1, object
type gets report NotFound for id B and succeed otherwise, and every mutation
succeeds echoing a small body. -/
def sampleApi : RemoteAPI where
  find_by_name := fun n => if n = "TestApp" then some (.obj [("id", .str "app-1")]) else none
  create_application := fun _ => .ok (.obj [("id", .str "new-1")])
  update_application := fun i _ => .ok (.obj [("id", .str i)])
  get_object_type := fun _ otid =>
    if otid = "B" then .error (.igaNotFoundError (.str "Resource not found") (some 404) (.list []))
    else .ok (.obj [("id", .str otid)])
  update_object_type := fun _ otid _ => .ok (.obj [("updated", .str otid)])
  add_object_type := fun _ p => .ok (.obj [("added", p)])
  upload_file := fun _ fp _ => .ok (.obj [("file", .str fp)])

/-- sampleOTA is an object type that sampleApi reports as existing, used by
witness statements. -/
def sampleOTA : ObjectTypeDefinition := ⟨"A", "account", []⟩

/-- sampleOTB is an object type that sampleApi reports as NotFound, used by
witness statements. -/
def sampleOTB : ObjectTypeDefinition := ⟨"B", "resource", []⟩

end Gia

namespace Gia

/-! Association list lemmas shared by the theorems below. -/

theorem assocGet?_assocSet_self {α : Type} (d : List (String × α)) (k : String) (v : α) :
    assocGet? (assocSet d k v) k = some v := by
  induction d with
  | nil => simp [assocSet, assocGet?]
  | cons p rest ih =>
      by_cases h : p.1 = k
      · simp [assocSet, assocGet?, h]
      · simp [assocSet, assocGet?, h, ih]

theorem assocGet?_assocSet_ne {α : Type} (d : List (String × α)) (k : String) (v : α)
    (k2 : String) (h : k ≠ k2) :
    assocGet? (assocSet d k v) k2 = assocGet? d k2 := by
  induction d with
  | nil => simp [assocSet, assocGet?, h]
  | cons p rest ih =>
      by_cases hp : p.1 = k
      · simp [assocSet, assocGet?, hp, h]
      · simp [assocSet, assocGet?, hp, ih]

theorem assocGet?_append {α : Type} (a b : List (String × α)) (k : String) :
    assocGet? (a ++ b) k =
      (match assocGet? a k with
       | some v => some v
       | none => assocGet? b k) := by
  induction a with
  | nil => simp [assocGet?]
  | cons p rest ih =>
      by_cases hp : p.1 = k
      · simp [assocGet?, hp]
      · simp [assocGet?, hp, ih]

theorem lastBinding?_cons {α : Type} (p : String × α) (rest : List (String × α)) (k : String) :
    lastBinding? (p :: rest) k =
      (match lastBinding? rest k with
       | some v => some v
       | none => if p.1 = k then some p.2 else none) := by
  simp only [lastBinding?, List.reverse_cons, assocGet?_append]
  cases assocGet? rest.reverse k <;> simp [assocGet?]

theorem assocGet?_assocUpdate {α : Type} (extra d : List (String × α)) (k : String) :
    assocGet? (assocUpdate d extra) k =
      (match lastBinding? extra k with
       | some v => some v
       | none => assocGet? d k) := by
  induction extra generalizing d with
  | nil => simp [assocUpdate, lastBinding?, assocGet?]
  | cons p rest ih =>
      have step : assocUpdate d (p :: rest) = assocUpdate (assocSet d p.1 p.2) rest := by
        simp [assocUpdate]
      rw [step, ih, lastBinding?_cons]
      cases hlb : lastBinding? rest k
      · by_cases hk : p.1 = k
        · subst hk
          simp [assocGet?_assocSet_self]
        · simp [hk, assocGet?_assocSet_ne _ _ _ _ hk]
      · simp

theorem assocSet_ne_nil {α : Type} (d : List (String × α)) (k : String) (v : α) :
    assocSet d k v ≠ [] := by
  cases d with
  | nil => simp [assocSet]
  | cons p rest =>
      by_cases h : p.1 = k <;> simp [assocSet, h]

end Gia

namespace Gia

/-- C3: after a token is fetched at time t0 with expiry t0 plus expires_in
(default 3600 when the server omits it), an access strictly before
expires_at minus 30 seconds issues no grant request and returns the cached
token unchanged, and an access at or after that boundary issues exactly one
refresh whose new expiry is the access time plus the new expires_in. -/
theorem token_refresh_boundary (t0 : Int) (r1 r2 : TokenResponse) :
    (accessToken initialTokenState t0 r1).grantRequests = 1 ∧
    (accessToken initialTokenState t0 r1).state.expires_at = t0 + r1.expires_in.getD 3600 ∧
    (r1.expires_in = none → (accessToken initialTokenState t0 r1).state.expires_at = t0 + 3600) ∧
    (∀ t1 : Int, t1 < (accessToken initialTokenState t0 r1).state.expires_at - 30 →
      (accessToken (accessToken initialTokenState t0 r1).state t1 r2).grantRequests = 0 ∧
      (accessToken (accessToken initialTokenState t0 r1).state t1 r2).token = r1.access_token ∧
      (accessToken (accessToken initialTokenState t0 r1).state t1 r2).state =
        (accessToken initialTokenState t0 r1).state) ∧
    (∀ t1 : Int, (accessToken initialTokenState t0 r1).state.expires_at - 30 ≤ t1 →
      (accessToken (accessToken initialTokenState t0 r1).state t1 r2).grantRequests = 1 ∧
      (accessToken (accessToken initialTokenState t0 r1).state t1 r2).state.expires_at =
        t1 + r2.expires_in.getD 3600) := by
  have hred : accessToken initialTokenState t0 r1 =
      ⟨⟨some r1.access_token, t0 + r1.expires_in.getD 3600⟩, r1.access_token, 1⟩ := rfl
  rw [hred]
  refine ⟨rfl, rfl, ?_, ?_, ?_⟩
  · intro h
    simp [h]
  · intro t1 ht
    have hcond : ¬ (t1 ≥ t0 + r1.expires_in.getD 3600 - TOKEN_EXPIRY_BUFFER_SECONDS) := by
      simp only [TOKEN_EXPIRY_BUFFER_SECONDS]
      simp at ht
      omega
    simp [accessToken, hcond]
  · intro t1 ht
    have hcond : t1 ≥ t0 + r1.expires_in.getD 3600 - TOKEN_EXPIRY_BUFFER_SECONDS := by
      simp only [TOKEN_EXPIRY_BUFFER_SECONDS]
      simp at ht
      omega
    simp [accessToken, hcond, fetch_token]

/-- Witness for C3 at concrete times and responses. -/
theorem token_refresh_boundary_witness :
    (accessToken initialTokenState 0 ⟨"tok1", some 1000⟩).grantRequests = 1 ∧
    (accessToken initialTokenState 0 ⟨"tok1", some 1000⟩).state.expires_at =
      0 + (some (1000 : Int)).getD 3600 ∧
    ((some (1000 : Int)) = none →
      (accessToken initialTokenState 0 ⟨"tok1", some 1000⟩).state.expires_at = 0 + 3600) ∧
    ((accessToken (accessToken initialTokenState 0 ⟨"tok1", some 1000⟩).state 500
        ⟨"tok2", none⟩).grantRequests = 0 ∧
      (accessToken (accessToken initialTokenState 0 ⟨"tok1", some 1000⟩).state 500
        ⟨"tok2", none⟩).token = "tok1" ∧
      (accessToken (accessToken initialTokenState 0 ⟨"tok1", some 1000⟩).state 500
        ⟨"tok2", none⟩).state = (accessToken initialTokenState 0 ⟨"tok1", some 1000⟩).state) ∧
    ((accessToken (accessToken initialTokenState 0 ⟨"tok1", some 1000⟩).state 970
        ⟨"tok2", none⟩).grantRequests = 1 ∧
      (accessToken (accessToken initialTokenState 0 ⟨"tok1", some 1000⟩).state 970
        ⟨"tok2", none⟩).state.expires_at = 970 + (none : Option Int).getD 3600) := by
  obtain ⟨h1, h2, h3, h4, h5⟩ := token_refresh_boundary 0 ⟨"tok1", some 1000⟩ ⟨"tok2", none⟩
  exact ⟨h1, h2, h3, h4 500 (by decide), h5 970 (by decide)⟩

end Gia

namespace Gia

/-- C8: adding an object type under an id that the model already holds fails
with the ValueError that realizes the configuration-error kind, and the model
is unchanged, so the previously added definition is still there. -/
theorem add_object_type_duplicate (app : DisconnectedApplication) (id ty : String)
    (props : List (String × Val)) (ot0 : ObjectTypeDefinition)
    (h : assocGet? app.object_types id = some ot0) :
    (app.add_object_type id ty props).1 = app ∧
    (∃ msg, (app.add_object_type id ty props).2 = .error (.valueError msg)) ∧
    assocGet? (app.add_object_type id ty props).1.object_types id = some ot0 := by
  have hh : assocHas app.object_types id = true := by
    simp [assocHas, h]
  refine ⟨?_, ⟨dupObjectTypeMessage id, ?_⟩, ?_⟩ <;>
    simp [DisconnectedApplication.add_object_type, hh, h]

/-- Witness for C8 at a concrete model already holding the id. -/
theorem add_object_type_duplicate_witness :
    (sampleApp.add_object_type "__ACCOUNT__" "account" []).1 = sampleApp ∧
    (∃ msg, (sampleApp.add_object_type "__ACCOUNT__" "account" []).2 =
      .error (.valueError msg)) ∧
    assocGet? (sampleApp.add_object_type "__ACCOUNT__" "account" []).1.object_types
      "__ACCOUNT__" = some sampleOT :=
  add_object_type_duplicate sampleApp "__ACCOUNT__" "account" [] sampleOT rfl

end Gia

namespace Gia

/-- C10: when the first page reports no totalCount, or a totalCount no
greater than what the first page already returned, the paginator stops after
exactly one request and returns just that page, whatever the server would
have returned at later offsets. -/
theorem paginate_missing_total (getPage : Nat → List Val × Option Nat) (P : Nat)
    (mp : Option Nat) (fuel : Nat) (rs : List Val) (t? : Option Nat)
    (hpage : getPage 0 = (rs, t?)) (htot : t?.getD 0 ≤ rs.length) (hfuel : 1 ≤ fuel) :
    api_get_paginated getPage P 0 mp fuel = some (rs, 1) := by
  obtain ⟨f, rfl⟩ : ∃ f, fuel = f + 1 := ⟨fuel - 1, by omega⟩
  have hcond : (rs.isEmpty || decide ((([] : List Val) ++ rs).length ≥ t?.getD 0)) = true := by
    simp
    omega
  simp only [api_get_paginated, paginate, hpage, hcond, if_true]
  simp

/-- Witness for C10: a server whose first page has two items and no
totalCount, with more data available at the next offset, yields exactly that
page and one request. -/
theorem paginate_missing_total_witness :
    api_get_paginated
      (fun offset => if offset = 0 then ([Val.int 1, Val.int 2], none) else ([Val.int 3], some 3))
      2 0 none 9 = some ([Val.int 1, Val.int 2], 1) :=
  paginate_missing_total _ 2 none 9 [Val.int 1, Val.int 2] none rfl (by decide) (by decide)

end Gia

namespace Gia

/-- C6: handle_response maps 404 to IGANotFoundError (a class distinct from
the plain IGAClientError, so callers can branch on existence), any other
status of at least 400 to IGAClientError carrying the server message and
details when the body is a JSON object and the raw text otherwise, 204 or an
empty body to an empty dict, and any other response to its decoded JSON
body. -/
theorem handle_response_normalization :
    (∀ resp : HttpResponse, resp.status_code = 404 →
      handle_response resp =
        .error (.igaNotFoundError (.str "Resource not found") (some 404) (.list []))) ∧
    (∀ (m : Val) (sc : Option Nat) (d : Val) (m2 : Val) (sc2 : Option Nat) (d2 : Val),
      PyErr.cls (.igaNotFoundError m sc d) ≠ PyErr.cls (.igaClientError m2 sc2 d2)) ∧
    (∀ (resp : HttpResponse) (body : List (String × Val)) (m d : Val),
      resp.status_code ≠ 404 → 400 ≤ resp.status_code →
      resp.json? = some (.obj body) → assocGet? body "message" = some m →
      assocGet? body "details" = some d → pyFalsy d = false →
      handle_response resp = .error (.igaClientError m (some resp.status_code) d)) ∧
    (∀ resp : HttpResponse, resp.status_code ≠ 404 → 400 ≤ resp.status_code →
      resp.json? = none →
      handle_response resp =
        .error (.igaClientError (.str resp.text) (some resp.status_code) (.list []))) ∧
    (∀ resp : HttpResponse, resp.status_code < 400 →
      (resp.status_code = 204 ∨ resp.content_empty = true) →
      handle_response resp = .ok (.obj [])) ∧
    (∀ (resp : HttpResponse) (v : Val), resp.status_code < 400 → resp.status_code ≠ 204 →
      resp.content_empty = false → resp.json? = some v →
      handle_response resp = .ok v) := by
  refine ⟨?_, ?_, ?_, ?_, ?_, ?_⟩
  · intro resp h
    simp [handle_response, h]
  · intro m sc d m2 sc2 d2
    simp [PyErr.cls]
  · intro resp body m d h404 h400 hjson hm hd hfal
    simp only [handle_response, if_neg h404, ge_iff_le, if_pos h400, hjson, hm, hd, hfal]
    simp
  · intro resp h404 h400 hjson
    simp only [handle_response, if_neg h404, ge_iff_le, if_pos h400, hjson]
  · intro resp hlt hor
    have h404 : resp.status_code ≠ 404 := by omega
    have h400 : ¬ (resp.status_code ≥ 400) := by omega
    have hcond : (resp.status_code = 204 || resp.content_empty) = true := by
      rcases hor with h | h <;> simp [h]
    simp only [handle_response, if_neg h404, ge_iff_le, if_neg h400, hcond, if_true]
  · intro resp v hlt h204 hce hjson
    have h404 : resp.status_code ≠ 404 := by omega
    have h400 : ¬ (resp.status_code ≥ 400) := by omega
    have hcond : (resp.status_code = 204 || resp.content_empty) = false := by
      simp [h204, hce]
    simp only [handle_response, if_neg h404, ge_iff_le, if_neg h400, hcond, Bool.false_eq_true,
      if_false, hjson]

/-- Witness for C6 at one concrete response per branch. -/
theorem handle_response_normalization_witness :
    handle_response ⟨404, false, "", none⟩ =
      .error (.igaNotFoundError (.str "Resource not found") (some 404) (.list [])) ∧
    handle_response ⟨500, false, "oops",
        some (.obj [("message", .str "bad"), ("details", .list [.str "d1"])])⟩ =
      .error (.igaClientError (.str "bad") (some 500) (.list [.str "d1"])) ∧
    handle_response ⟨502, false, "gateway", none⟩ =
      .error (.igaClientError (.str "gateway") (some 502) (.list [])) ∧
    handle_response ⟨204, true, "", none⟩ = .ok (.obj []) ∧
    handle_response ⟨200, false, "x", some (.bool true)⟩ = .ok (.bool true) := by
  obtain ⟨h1, _, h3, h4, h5, h6⟩ := handle_response_normalization
  exact ⟨h1 ⟨404, false, "", none⟩ rfl,
    h3 ⟨500, false, "oops", some (.obj [("message", .str "bad"), ("details", .list [.str "d1"])])⟩
      [("message", .str "bad"), ("details", .list [.str "d1"])] (.str "bad") (.list [.str "d1"])
      (by decide) (by decide) rfl rfl rfl rfl,
    h4 ⟨502, false, "gateway", none⟩ (by decide) (by decide) rfl,
    h5 ⟨204, true, "", none⟩ (by decide) (Or.inl rfl),
    h6 ⟨200, false, "x", some (.bool true)⟩ (.bool true) (by decide) (by decide) rfl rfl⟩

end Gia

namespace Gia

/-! Payload lemmas for C9. -/

theorem assocGet?_prePayload_ownerIds (app : DisconnectedApplication) :
    assocGet? (prePayload app) "ownerIds" =
      if app.owner_ids.isEmpty then none
      else some (Val.list (app.owner_ids.map Val.str)) := by
  have hni : ("icon" : String) ≠ "ownerIds" := by decide
  have hno : ("objectTypes" : String) ≠ "ownerIds" := by decide
  have hbase : assocGet? (applicationBasePayload app) "ownerIds" = none := rfl
  have hsi : ∀ (d : List (String × Val)) (v : Val),
      assocGet? (assocSet d "icon" v) "ownerIds" = assocGet? d "ownerIds" :=
    fun d v => assocGet?_assocSet_ne d "icon" v "ownerIds" hni
  have hso : ∀ (d : List (String × Val)) (v : Val),
      assocGet? (assocSet d "objectTypes" v) "ownerIds" = assocGet? d "ownerIds" :=
    fun d v => assocGet?_assocSet_ne d "objectTypes" v "ownerIds" hno
  unfold prePayload
  by_cases h1 : app.owner_ids.isEmpty <;> by_cases h2 : app.icon = "" <;>
    by_cases h3 : (objectTypesDict app).isEmpty <;>
      simp [h1, h2, h3, hsi, hso, assocGet?_assocSet_self, hbase]

theorem assocGet?_prePayload_icon (app : DisconnectedApplication) :
    assocGet? (prePayload app) "icon" =
      if app.icon = "" then none else some (Val.str app.icon) := by
  have hno : ("objectTypes" : String) ≠ "icon" := by decide
  have hnw : ("ownerIds" : String) ≠ "icon" := by decide
  have hbase : assocGet? (applicationBasePayload app) "icon" = none := rfl
  have hsw : ∀ (d : List (String × Val)) (v : Val),
      assocGet? (assocSet d "ownerIds" v) "icon" = assocGet? d "icon" :=
    fun d v => assocGet?_assocSet_ne d "ownerIds" v "icon" hnw
  have hso : ∀ (d : List (String × Val)) (v : Val),
      assocGet? (assocSet d "objectTypes" v) "icon" = assocGet? d "icon" :=
    fun d v => assocGet?_assocSet_ne d "objectTypes" v "icon" hno
  unfold prePayload
  by_cases h1 : app.owner_ids.isEmpty <;> by_cases h2 : app.icon = "" <;>
    by_cases h3 : (objectTypesDict app).isEmpty <;>
      simp [h1, h2, h3, hsw, hso, assocGet?_assocSet_self, hbase]

theorem assocGet?_prePayload_objectTypes (app : DisconnectedApplication) :
    assocGet? (prePayload app) "objectTypes" =
      if (objectTypesDict app).isEmpty then none
      else some (Val.obj (objectTypesDict app)) := by
  have hnw : ("ownerIds" : String) ≠ "objectTypes" := by decide
  have hni : ("icon" : String) ≠ "objectTypes" := by decide
  have hbase : assocGet? (applicationBasePayload app) "objectTypes" = none := rfl
  have hsw : ∀ (d : List (String × Val)) (v : Val),
      assocGet? (assocSet d "ownerIds" v) "objectTypes" = assocGet? d "objectTypes" :=
    fun d v => assocGet?_assocSet_ne d "ownerIds" v "objectTypes" hnw
  have hsi : ∀ (d : List (String × Val)) (v : Val),
      assocGet? (assocSet d "icon" v) "objectTypes" = assocGet? d "objectTypes" :=
    fun d v => assocGet?_assocSet_ne d "icon" v "objectTypes" hni
  unfold prePayload
  by_cases h1 : app.owner_ids.isEmpty <;> by_cases h2 : app.icon = "" <;>
    by_cases h3 : (objectTypesDict app).isEmpty <;>
      simp [h1, h2, h3, hsw, hsi, assocGet?_assocSet_self, hbase]

theorem foldl_assocSet_ne_nil (l : List ObjectTypeDefinition) :
    ∀ acc : List (String × Val), acc ≠ [] →
      l.foldl (fun acc ot => assocSet acc ot.id ot.to_dict) acc ≠ [] := by
  induction l with
  | nil => intro acc h; exact h
  | cons x xs ih => intro acc _; exact ih _ (assocSet_ne_nil _ _ _)

theorem objectTypesDict_isEmpty (app : DisconnectedApplication) :
    (objectTypesDict app).isEmpty = app.object_types.isEmpty := by
  unfold objectTypesDict
  cases h : app.object_types with
  | nil => simp
  | cons p rest =>
      simp only [List.map_cons, List.foldl_cons, List.isEmpty_cons]
      have hne := foldl_assocSet_ne_nil (rest.map Prod.snd)
        (assocSet [] p.2.id p.2.to_dict) (assocSet_ne_nil _ _ _)
      simp [List.isEmpty_iff, hne]

end Gia

namespace Gia

/-- C9 counterexample: a name-only model whose extra_fields carries an
ownerIds binding produces a payload containing the ownerIds key even though
the owner list is empty, so inclusion is not exactly-when-non-empty for every
model. -/
theorem payload_key_semantics_counterexample :
    (⟨"Min", "", [], "", [("ownerIds", Val.str "sneaky")], [], []⟩ :
      DisconnectedApplication).owner_ids = [] ∧
    keyIn (to_application_payload
      ⟨"Min", "", [], "", [("ownerIds", Val.str "sneaky")], [], []⟩) "ownerIds" = true :=
  ⟨rfl, rfl⟩

/-- C9 amended: the payload includes ownerIds, icon and objectTypes exactly
when the corresponding model field is non-empty, provided extra_fields does
not itself bind that key; and the extra fields are merged last, so the last
extra binding of any key gives that key its final value (last-write-wins,
including over the fixed payload keys). -/
theorem payload_key_semantics (app : DisconnectedApplication) :
    (lastBinding? app.extra_fields "ownerIds" = none →
      (keyIn (to_application_payload app) "ownerIds" = true ↔ app.owner_ids ≠ [])) ∧
    (lastBinding? app.extra_fields "icon" = none →
      (keyIn (to_application_payload app) "icon" = true ↔ app.icon ≠ "")) ∧
    (lastBinding? app.extra_fields "objectTypes" = none →
      (keyIn (to_application_payload app) "objectTypes" = true ↔ app.object_types ≠ [])) ∧
    (∀ (k : String) (v : Val), lastBinding? app.extra_fields k = some v →
      assocGet? (to_application_payload app) k = some v) := by
  refine ⟨?_, ?_, ?_, ?_⟩
  · intro h
    simp only [keyIn, assocHas, to_application_payload, assocGet?_assocUpdate, h,
      assocGet?_prePayload_ownerIds]
    by_cases he : app.owner_ids.isEmpty
    · simp [he, List.isEmpty_iff.mp he]
    · simp only [he, if_false, Option.isSome_some]
      simp only [List.isEmpty_iff] at he
      simp [he]
  · intro h
    simp only [keyIn, assocHas, to_application_payload, assocGet?_assocUpdate, h,
      assocGet?_prePayload_icon]
    by_cases he : app.icon = ""
    · simp [he]
    · simp [he]
  · intro h
    simp only [keyIn, assocHas, to_application_payload, assocGet?_assocUpdate, h,
      assocGet?_prePayload_objectTypes, objectTypesDict_isEmpty]
    by_cases he : app.object_types.isEmpty
    · simp [he, List.isEmpty_iff.mp he]
    · simp only [he, if_false, Option.isSome_some]
      simp only [List.isEmpty_iff] at he
      simp [he]
  · intro k v h
    simp only [to_application_payload, assocGet?_assocUpdate, h]

/-- Witness for C9 at a concrete model with owners, icon, one object type and
an extra field overriding the description key. -/
theorem payload_key_semantics_witness :
    (keyIn (to_application_payload
      ⟨"Full", "d", ["u1"], "x", [("description", Val.str "override")],
        [("__ACCOUNT__", sampleOT)], []⟩) "ownerIds" = true ↔
      (⟨"Full", "d", ["u1"], "x", [("description", Val.str "override")],
        [("__ACCOUNT__", sampleOT)], []⟩ :
        DisconnectedApplication).owner_ids ≠ []) ∧
    (keyIn (to_application_payload
      ⟨"Full", "d", ["u1"], "x", [("description", Val.str "override")],
        [("__ACCOUNT__", sampleOT)], []⟩) "icon" = true ↔
      (⟨"Full", "d", ["u1"], "x", [("description", Val.str "override")],
        [("__ACCOUNT__", sampleOT)], []⟩ :
        DisconnectedApplication).icon ≠ "") ∧
    (keyIn (to_application_payload
      ⟨"Full", "d", ["u1"], "x", [("description", Val.str "override")],
        [("__ACCOUNT__", sampleOT)], []⟩) "objectTypes" = true ↔
      (⟨"Full", "d", ["u1"], "x", [("description", Val.str "override")],
        [("__ACCOUNT__", sampleOT)], []⟩ :
        DisconnectedApplication).object_types ≠ []) ∧
    assocGet? (to_application_payload
      ⟨"Full", "d", ["u1"], "x", [("description", Val.str "override")],
        [("__ACCOUNT__", sampleOT)], []⟩) "description" = some (Val.str "override") := by
  obtain ⟨h1, h2, h3, h4⟩ := payload_key_semantics
    ⟨"Full", "d", ["u1"], "x", [("description", Val.str "override")],
      [("__ACCOUNT__", sampleOT)], []⟩
  exact ⟨h1 rfl, h2 rfl, h3 rfl, h4 "description" (Val.str "override") rfl⟩

end Gia

namespace Gia

/-- paginate_nominal: against a nominal server, starting at an offset still
inside the data with the prefix up to that offset already accumulated, the
loop returns all items and issues one request per remaining page. -/
theorem paginate_nominal (items : List Val) (P : Nat) (hP : 0 < P) :
    ∀ (fuel offset pages : Nat), offset < items.length →
      items.length - offset ≤ fuel * P →
      paginate (nominalServer items P) P none offset pages (items.take offset) fuel =
        some (items, pages + ((items.length - offset - 1) / P + 1)) := by
  intro fuel
  induction fuel with
  | zero =>
      intro offset pages hoff hfuel
      omega
  | succ fuel ih =>
      intro offset pages hoff hfuel
      have hunfold : paginate (nominalServer items P) P none offset pages
          (items.take offset) (fuel + 1) =
          (if (((items.drop offset).take P).isEmpty ||
              decide ((items.take offset ++ (items.drop offset).take P).length ≥
                items.length)) = true then
            some (items.take offset ++ (items.drop offset).take P, pages + 1)
          else
            paginate (nominalServer items P) P none (offset + P) (pages + 1)
              (items.take offset ++ (items.drop offset).take P) fuel) := by
        simp only [paginate, nominalServer, Option.getD_some, Bool.false_eq_true, if_false]
      have hall : items.take offset ++ (items.drop offset).take P = items.take (offset + P) := by
        rw [List.take_add]
      have hres_ne : ((items.drop offset).take P).isEmpty = false := by
        cases hl : (items.drop offset).take P with
        | nil =>
            exfalso
            have := congrArg List.length hl
            simp only [List.length_take, List.length_drop, List.length_nil] at this
            omega
        | cons a l => rfl
      by_cases hcase : items.length ≤ offset + P
      · have hallN : (items.take offset ++ (items.drop offset).take P).length =
            items.length := by
          rw [hall]
          simp only [List.length_take]
          omega
        have hcond : (((items.drop offset).take P).isEmpty ||
            decide ((items.take offset ++ (items.drop offset).take P).length ≥
              items.length)) = true := by
          rw [hres_ne, hallN]
          simp
        have htake : items.take (offset + P) = items := List.take_of_length_le hcase
        have hdiv : (items.length - offset - 1) / P = 0 := Nat.div_eq_of_lt (by omega)
        rw [hunfold, if_pos hcond, hall, htake, hdiv]
      · have hallLen : (items.take offset ++ (items.drop offset).take P).length =
            offset + P := by
          rw [hall]
          simp only [List.length_take]
          omega
        have hcond : (((items.drop offset).take P).isEmpty ||
            decide ((items.take offset ++ (items.drop offset).take P).length ≥
              items.length)) = false := by
          rw [hres_ne, hallLen]
          simp only [Bool.false_or, decide_eq_false_iff_not, ge_iff_le, not_le]
          omega
        have hrec := ih (offset + P) (pages + 1) (by omega) (by
          have hmul : (fuel + 1) * P = fuel * P + P := by ring
          omega)
        have hdiv : (items.length - offset - 1) / P =
            (items.length - (offset + P) - 1) / P + 1 := by
          have hPa : P ≤ items.length - offset - 1 := by omega
          rw [Nat.div_eq_sub_div hP hPa]
          congr 2
          omega
        rw [hunfold, if_neg (by rw [hcond]; simp), hall, hrec, hdiv]
        congr 2
        omega

/-- C2 counterexample: with zero total results the loop still issues its
first request before it can observe the empty page, so one request is made
where the claim demands ceil(0 divided by P) equals zero requests. -/
theorem paginated_request_count_counterexample :
    api_get_paginated (nominalServer [] 2) 2 0 none 5 = some ([], 1) ∧
    (1 : Nat) ≠ (0 + 2 - 1) / 2 :=
  ⟨rfl, by decide⟩

/-- C2 amended: against a nominal server with N items and page size P, the
paginator returns all N items, issuing exactly ceil of N over P page requests
when N is at least 1, and exactly one page request when N equals 0 (the loop
always sends its first request). -/
theorem paginated_request_count (items : List Val) (P fuel : Nat) (hP : 0 < P)
    (hfuel : items.length ≤ fuel * P) (hfuel1 : 1 ≤ fuel) :
    api_get_paginated (nominalServer items P) P 0 none fuel =
      some (items, if items.length = 0 then 1 else (items.length - 1) / P + 1) := by
  by_cases hzero : items.length = 0
  · have hnil : items = [] := List.eq_nil_of_length_eq_zero hzero
    subst hnil
    obtain ⟨f, rfl⟩ : ∃ f, fuel = f + 1 := ⟨fuel - 1, by omega⟩
    simp [api_get_paginated, paginate, nominalServer]
  · have h0 : (0 : Nat) < items.length := by omega
    have := paginate_nominal items P hP fuel 0 0 h0 (by omega)
    simp only [List.take_zero] at this
    simp only [api_get_paginated, this, hzero, if_false, Nat.zero_add, Nat.sub_zero]

/-- Witness for C2 at three items and page size two: two requests, all three
items returned. -/
theorem paginated_request_count_witness :
    api_get_paginated (nominalServer [Val.int 1, Val.int 2, Val.int 3] 2) 2 0 none 9 =
      some ([Val.int 1, Val.int 2, Val.int 3], 2) := by
  have h := paginated_request_count [Val.int 1, Val.int 2, Val.int 3] 2 9
    (by decide) (by decide) (by decide)
  simpa using h

end Gia

namespace Gia

/-! Retry lemmas and theorems for C5. -/

theorem retryLoop_le (p : RetryPolicy) (method : String) (outcomes : Nat → AttemptOutcome) :
    ∀ budget i, retryLoop p method outcomes budget i ≤ budget + i + 1 := by
  intro budget
  induction budget with
  | zero => intro i; simp [retryLoop]
  | succ b ih =>
      intro i
      simp only [retryLoop]
      by_cases h : isRetryableOutcome p method (outcomes i) = true
      · rw [if_pos h]
        have := ih (i + 1)
        omega
      · rw [if_neg h]
        omega

theorem retryLoop_ge (p : RetryPolicy) (method : String) (outcomes : Nat → AttemptOutcome) :
    ∀ budget i, i + 1 ≤ retryLoop p method outcomes budget i := by
  intro budget
  induction budget with
  | zero => intro i; simp [retryLoop]
  | succ b ih =>
      intro i
      simp only [retryLoop]
      by_cases h : isRetryableOutcome p method (outcomes i) = true
      · rw [if_pos h]
        have := ih (i + 1)
        omega
      · rw [if_neg h]

/-- C5 counterexample: a GET answered by 503 on every attempt is sent four
times on the wire, because Retry with total equal to 3 allows three retries
after the initial request; the claim caps total attempts at three. -/
theorem retry_attempts_counterexample :
    attemptsSent buildSessionRetry "GET" (fun _ => AttemptOutcome.status 503) = 4 ∧
    ¬ (attemptsSent buildSessionRetry "GET" (fun _ => AttemptOutcome.status 503) ≤ 3) := by
  have h : attemptsSent buildSessionRetry "GET" (fun _ => AttemptOutcome.status 503) = 4 := rfl
  exact ⟨h, by rw [h]; omega⟩

/-- C5 amended: every request through the configured session is attempted at
most MAX_RETRIES plus one times in total (the initial send plus up to three
retries); a first attempt answered by a forcelist status with any of the four
configured methods, or by a connection error with any method, is retried; a
4xx status other than 429 is never in the forcelist, so such a response
returns after exactly one attempt with no retry; and the backoff schedule is
exponential with factor RETRY_BACKOFF equal to one half. -/
theorem retry_policy_behavior :
    (∀ (method : String) (outcomes : Nat → AttemptOutcome),
      attemptsSent buildSessionRetry method outcomes ≤ MAX_RETRIES + 1) ∧
    (∀ (method : String) (code : Nat) (outcomes : Nat → AttemptOutcome),
      method ∈ ALLOWED_METHODS → code ∈ RETRY_STATUS_CODES →
      outcomes 0 = .status code → 2 ≤ attemptsSent buildSessionRetry method outcomes) ∧
    (∀ (method : String) (outcomes : Nat → AttemptOutcome),
      outcomes 0 = .connError → 2 ≤ attemptsSent buildSessionRetry method outcomes) ∧
    (∀ (method : String) (code : Nat) (outcomes : Nat → AttemptOutcome),
      400 ≤ code → code < 500 → code ≠ 429 → outcomes 0 = .status code →
      attemptsSent buildSessionRetry method outcomes = 1) ∧
    RETRY_BACKOFF = 1 / 2 ∧
    (∀ n : Nat, 2 ≤ n → n ≤ MAX_RETRIES + 1 →
      get_backoff_time buildSessionRetry n = RETRY_BACKOFF * 2 ^ (n - 1)) := by
  refine ⟨?_, ?_, ?_, ?_, rfl, ?_⟩
  · intro method outcomes
    have h := retryLoop_le buildSessionRetry method outcomes buildSessionRetry.total 0
    simpa [attemptsSent, buildSessionRetry, MAX_RETRIES] using h
  · intro method code outcomes hm hc h0
    have hretry : isRetryableOutcome buildSessionRetry method (outcomes 0) = true := by
      rw [h0]
      simp only [isRetryableOutcome, buildSessionRetry]
      simp [hm, hc]
    have hstep : attemptsSent buildSessionRetry method outcomes =
        retryLoop buildSessionRetry method outcomes 2 1 := by
      show retryLoop buildSessionRetry method outcomes 3 0 = _
      simp only [retryLoop, hretry, if_true]
    rw [hstep]
    exact retryLoop_ge buildSessionRetry method outcomes 2 1
  · intro method outcomes h0
    have hretry : isRetryableOutcome buildSessionRetry method (outcomes 0) = true := by
      rw [h0]
      rfl
    have hstep : attemptsSent buildSessionRetry method outcomes =
        retryLoop buildSessionRetry method outcomes 2 1 := by
      show retryLoop buildSessionRetry method outcomes 3 0 = _
      simp only [retryLoop, hretry, if_true]
    rw [hstep]
    exact retryLoop_ge buildSessionRetry method outcomes 2 1
  · intro method code outcomes h400 h500 h429 h0
    have hretry : isRetryableOutcome buildSessionRetry method (outcomes 0) = false := by
      rw [h0]
      simp only [isRetryableOutcome, buildSessionRetry]
      simp
      intro _
      simp only [RETRY_STATUS_CODES, List.mem_cons, List.not_mem_nil, or_false]
      omega
    show retryLoop buildSessionRetry method outcomes 3 0 = 1
    simp only [retryLoop, hretry, Bool.false_eq_true, if_false]
  · intro n h2 h4
    simp only [MAX_RETRIES] at h4
    interval_cases n <;>
      norm_num [get_backoff_time, buildSessionRetry, RETRY_BACKOFF, BACKOFF_MAX]

/-- Witness for C5 at concrete methods and outcome streams. -/
theorem retry_policy_behavior_witness :
    attemptsSent buildSessionRetry "GET" (fun _ => AttemptOutcome.connError) ≤ MAX_RETRIES + 1 ∧
    2 ≤ attemptsSent buildSessionRetry "POST" (fun _ => AttemptOutcome.status 503) ∧
    2 ≤ attemptsSent buildSessionRetry "PUT" (fun _ => AttemptOutcome.connError) ∧
    attemptsSent buildSessionRetry "DELETE" (fun _ => AttemptOutcome.status 400) = 1 ∧
    RETRY_BACKOFF = 1 / 2 ∧
    get_backoff_time buildSessionRetry 2 = RETRY_BACKOFF * 2 ^ (2 - 1) := by
  obtain ⟨h1, h2, h3, h4, h5, h6⟩ := retry_policy_behavior
  exact ⟨h1 "GET" _, h2 "POST" 503 _ (by simp [ALLOWED_METHODS]) (by simp [RETRY_STATUS_CODES]) rfl,
    h3 "PUT" _ rfl,
    h4 "DELETE" 400 _ (by decide) (by decide) (by decide) rfl, h5, h6 2 (by decide) (by decide)⟩

end Gia



namespace Gia

/-! Trace lemmas for the push orchestration. -/

theorem reconcileStep_no_app_calls (api : RemoteAPI) (app_id : String)
    (ot : ObjectTypeDefinition) :
    ∀ c ∈ (reconcileStep api app_id ot).2,
      isCreateAppCall c = false ∧ isUpdateAppCall c = false := by
  intro c hc
  cases hg : api.get_object_type app_id ot.id with
  | ok v =>
      cases hu : api.update_object_type app_id ot.id ot.to_dict with
      | ok r =>
          simp only [reconcileStep, hg, hu, List.mem_cons, List.not_mem_nil, or_false] at hc
          rcases hc with rfl | rfl <;> exact ⟨rfl, rfl⟩
      | error e =>
          by_cases hnf : isNotFoundErr e = true
          · cases ha : api.add_object_type app_id ot.to_dict with
            | ok r2 =>
                simp only [reconcileStep, hg, hu, hnf, if_true, ha, List.mem_cons,
                  List.not_mem_nil, or_false] at hc
                rcases hc with rfl | rfl | rfl <;> exact ⟨rfl, rfl⟩
            | error e2 =>
                simp only [reconcileStep, hg, hu, hnf, if_true, ha, List.mem_cons,
                  List.not_mem_nil, or_false] at hc
                rcases hc with rfl | rfl | rfl <;> exact ⟨rfl, rfl⟩
          · simp only [reconcileStep, hg, hu, if_neg hnf, List.mem_cons,
              List.not_mem_nil, or_false] at hc
            rcases hc with rfl | rfl <;> exact ⟨rfl, rfl⟩
  | error e =>
      by_cases hnf : isNotFoundErr e = true
      · cases ha : api.add_object_type app_id ot.to_dict with
        | ok r2 =>
            simp only [reconcileStep, hg, hnf, if_true, ha, List.mem_cons,
              List.not_mem_nil, or_false] at hc
            rcases hc with rfl | rfl <;> exact ⟨rfl, rfl⟩
        | error e2 =>
            simp only [reconcileStep, hg, hnf, if_true, ha, List.mem_cons,
              List.not_mem_nil, or_false] at hc
            rcases hc with rfl | rfl <;> exact ⟨rfl, rfl⟩
      · simp only [reconcileStep, hg, if_neg hnf, List.mem_cons,
          List.not_mem_nil, or_false] at hc
        subst hc
        exact ⟨rfl, rfl⟩

theorem reconcile_no_app_calls (api : RemoteAPI) (app_id : String) :
    ∀ (ots : List ObjectTypeDefinition) (acc : List (String × Val)),
      ∀ c ∈ (reconcileObjectTypes api app_id acc ots).2,
        isCreateAppCall c = false ∧ isUpdateAppCall c = false := by
  intro ots
  induction ots with
  | nil =>
      intro acc c hc
      simp [reconcileObjectTypes] at hc
  | cons ot rest ih =>
      intro acc c hc
      rcases hstep : reconcileStep api app_id ot with ⟨r, cs⟩
      cases r with
      | ok resp =>
          simp only [reconcileObjectTypes, hstep, List.mem_append] at hc
          rcases hc with hc | hc
          · exact reconcileStep_no_app_calls api app_id ot c (by rw [hstep]; exact hc)
          · exact ih _ c hc
      | error e =>
          simp only [reconcileObjectTypes, hstep] at hc
          exact reconcileStep_no_app_calls api app_id ot c (by rw [hstep]; exact hc)

theorem uploadFiles_no_app_calls (api : RemoteAPI) (app_id : String) :
    ∀ us : List FileUpload,
      ∀ c ∈ (uploadFiles api app_id us).2,
        isCreateAppCall c = false ∧ isUpdateAppCall c = false := by
  intro us
  induction us with
  | nil =>
      intro c hc
      simp [uploadFiles] at hc
  | cons u rest ih =>
      intro c hc
      cases hu : api.upload_file app_id u.file_path u.object_type with
      | ok r =>
          rcases hrest : uploadFiles api app_id rest with ⟨r2, cs⟩
          cases r2 with
          | ok rs =>
              simp only [uploadFiles, hu, hrest, List.mem_cons] at hc
              rcases hc with rfl | hc
              · exact ⟨rfl, rfl⟩
              · exact ih c (by rw [hrest]; exact hc)
          | error e =>
              simp only [uploadFiles, hu, hrest, List.mem_cons] at hc
              rcases hc with rfl | hc
              · exact ⟨rfl, rfl⟩
              · exact ih c (by rw [hrest]; exact hc)
      | error e =>
          simp only [uploadFiles, hu, List.mem_cons, List.not_mem_nil, or_false] at hc
          subst hc
          exact ⟨rfl, rfl⟩

theorem continuePush_shape (app : DisconnectedApplication) (api : RemoteAPI)
    (app_id : String) (app_response : Val) (calls : List ApiCall) (warns : List String) :
    (continuePush app api app_id app_response calls warns).calls.filter isUpdateAppCall =
      calls.filter isUpdateAppCall ∧
    (continuePush app api app_id app_response calls warns).calls.filter isCreateAppCall =
      calls.filter isCreateAppCall ∧
    (continuePush app api app_id app_response calls warns).warnings = warns := by
  have hfilter_nil : ∀ (l : List ApiCall) (p : ApiCall → Bool),
      (∀ c ∈ l, p c = false) → l.filter p = [] := by
    intro l p hp
    rw [List.filter_eq_nil_iff]
    intro c hcmem
    simp [hp c hcmem]
  rcases hrec : reconcileObjectTypes api app_id [] (app.object_types.map Prod.snd) with ⟨r, cs⟩
  have hcs_upd : cs.filter isUpdateAppCall = [] :=
    hfilter_nil _ _ (fun c hcmem =>
      (reconcile_no_app_calls api app_id (app.object_types.map Prod.snd) [] c
        (by rw [hrec]; exact hcmem)).2)
  have hcs_cre : cs.filter isCreateAppCall = [] :=
    hfilter_nil _ _ (fun c hcmem =>
      (reconcile_no_app_calls api app_id (app.object_types.map Prod.snd) [] c
        (by rw [hrec]; exact hcmem)).1)
  cases r with
  | ok otResponses =>
      rcases hup : uploadFiles api app_id app.file_uploads with ⟨r2, us⟩
      have hus_upd : us.filter isUpdateAppCall = [] :=
        hfilter_nil _ _ (fun c hcmem =>
          (uploadFiles_no_app_calls api app_id app.file_uploads c
            (by rw [hup]; exact hcmem)).2)
      have hus_cre : us.filter isCreateAppCall = [] :=
        hfilter_nil _ _ (fun c hcmem =>
          (uploadFiles_no_app_calls api app_id app.file_uploads c
            (by rw [hup]; exact hcmem)).1)
      cases r2 with
      | ok rs =>
          simp only [continuePush, hrec, hup, List.filter_append, hcs_upd, hcs_cre,
            hus_upd, hus_cre, List.append_nil]
          simp
      | error e =>
          simp only [continuePush, hrec, hup, List.filter_append, hcs_upd, hcs_cre,
            hus_upd, hus_cre, List.append_nil]
          simp
  | error e =>
      simp only [continuePush, hrec, List.filter_append, hcs_upd, hcs_cre, List.append_nil]
      simp

end Gia

namespace Gia

/-- C1: when the model name resolves to an existing remote application whose
body carries an id, a push with upsert false raises the conflict
IGAClientError whose message names the existing id, having issued no create
and no update call; a push with upsert true issues exactly one update call,
against the existing id with the full payload, issues no create call, and
emits exactly one warning whose text names the existing id. -/
theorem push_upsert_semantics (api : RemoteAPI) (app : DisconnectedApplication)
    (exd : List (String × Val)) (eid : String)
    (hfind : api.find_by_name app.name = some (.obj exd))
    (hid : assocGet? exd "id" = some (.str eid)) :
    ((push app api false).result =
        .error (.igaClientError (.str (conflictMessage app.name eid)) none (.list [])) ∧
      (∃ a b, conflictMessage app.name eid = a ++ eid ++ b) ∧
      countCalls isCreateAppCall (push app api false).calls = 0 ∧
      countCalls isUpdateAppCall (push app api false).calls = 0) ∧
    ((push app api true).calls.filter isUpdateAppCall =
        [ApiCall.updateApplication eid (to_application_payload app)] ∧
      countCalls isCreateAppCall (push app api true).calls = 0 ∧
      (push app api true).warnings = [warnMessage app.name eid] ∧
      (∃ a b, warnMessage app.name eid = a ++ eid ++ b)) := by
  have hsub : pySubscript (.obj exd) "id" = .ok (.str eid) := by
    simp [pySubscript, hid]
  have hfalsy : pyFalsy (.obj exd) = false := by
    cases exd with
    | nil => simp [assocGet?] at hid
    | cons p rest => rfl
  have hpush_false : push app api false =
      ⟨.error (.igaClientError (.str (conflictMessage app.name eid)) none (.list [])),
        [ApiCall.findByName app.name], []⟩ := by
    simp [push, hfind, hsub, hfalsy, pyStr]
  constructor
  · rw [hpush_false]
    refine ⟨rfl, ?_, rfl, rfl⟩
    exact ⟨"Application " ++ pyQuote app.name ++ " already exists (id=",
      "). Set upsert=True to update.", rfl⟩
  · have hfilter_calls1 :
        ([ApiCall.findByName app.name,
          ApiCall.updateApplication eid (to_application_payload app)].filter isUpdateAppCall) =
        [ApiCall.updateApplication eid (to_application_payload app)] := rfl
    have hfilter_calls1c :
        ([ApiCall.findByName app.name,
          ApiCall.updateApplication eid (to_application_payload app)].filter isCreateAppCall) =
        ([] : List ApiCall) := rfl
    cases hupd : api.update_application eid (to_application_payload app) with
    | ok app_response =>
        have hpush_true : push app api true =
            continuePush app api eid app_response
              ([ApiCall.findByName app.name] ++
                [ApiCall.updateApplication eid (to_application_payload app)])
              [warnMessage app.name eid] := by
          simp [push, hfind, hsub, hfalsy, hupd, pyStr]
        obtain ⟨hshape1, hshape2, hshape3⟩ := continuePush_shape app api eid app_response
          ([ApiCall.findByName app.name] ++
            [ApiCall.updateApplication eid (to_application_payload app)])
          [warnMessage app.name eid]
        rw [hpush_true]
        refine ⟨?_, ?_, ?_, ?_⟩
        · rw [hshape1]
          rfl
        · simp only [countCalls, hshape2]
          rfl
        · exact hshape3
        · exact ⟨"Application " ++ pyQuote app.name ++ " already exists (id=",
            "). Updating.", rfl⟩
    | error e =>
        have hpush_true : push app api true =
            ⟨.error e,
              [ApiCall.findByName app.name] ++
                [ApiCall.updateApplication eid (to_application_payload app)],
              [warnMessage app.name eid]⟩ := by
          simp [push, hfind, hsub, hfalsy, hupd, pyStr]
        rw [hpush_true]
        refine ⟨rfl, rfl, rfl, ?_⟩
        exact ⟨"Application " ++ pyQuote app.name ++ " already exists (id=",
          "). Updating.", rfl⟩

/-- Witness for C1 at the concrete sample model and environment. -/
theorem push_upsert_semantics_witness :
    ((push sampleApp sampleApi false).result =
        .error (.igaClientError (.str (conflictMessage "TestApp" "app-1")) none (.list [])) ∧
      (∃ a b, conflictMessage "TestApp" "app-1" = a ++ "app-1" ++ b) ∧
      countCalls isCreateAppCall (push sampleApp sampleApi false).calls = 0 ∧
      countCalls isUpdateAppCall (push sampleApp sampleApi false).calls = 0) ∧
    ((push sampleApp sampleApi true).calls.filter isUpdateAppCall =
        [ApiCall.updateApplication "app-1" (to_application_payload sampleApp)] ∧
      countCalls isCreateAppCall (push sampleApp sampleApi true).calls = 0 ∧
      (push sampleApp sampleApi true).warnings = [warnMessage "TestApp" "app-1"] ∧
      (∃ a b, warnMessage "TestApp" "app-1" = a ++ "app-1" ++ b)) :=
  push_upsert_semantics sampleApi sampleApp [("id", Val.str "app-1")] "app-1" rfl rfl

end Gia

namespace Gia

/-! Recording lemmas for the object-type reconciliation loop. -/

theorem reconcile_acc_preserved (api : RemoteAPI) (app_id : String) :
    ∀ (ots : List ObjectTypeDefinition) (acc responses : List (String × Val))
      (cs : List ApiCall) (k : String),
      reconcileObjectTypes api app_id acc ots = (.ok responses, cs) →
      (∀ ot ∈ ots, ot.id ≠ k) →
      assocGet? responses k = assocGet? acc k := by
  intro ots
  induction ots with
  | nil =>
      intro acc responses cs k h hk
      simp only [reconcileObjectTypes, Prod.mk.injEq] at h
      obtain ⟨h1, _⟩ := h
      rw [← (Except.ok.injEq _ _).mp h1]
  | cons ot rest ih =>
      intro acc responses cs k h hk
      rcases hstep : reconcileStep api app_id ot with ⟨r, cs1⟩
      cases r with
      | ok resp =>
          rcases hrec : reconcileObjectTypes api app_id (assocSet acc ot.id resp) rest
            with ⟨r2, cs2⟩
          simp only [reconcileObjectTypes, hstep, hrec, Prod.mk.injEq] at h
          cases r2 with
          | ok responses2 =>
              obtain ⟨h1, _⟩ := h
              have h2 : responses2 = responses := (Except.ok.injEq _ _).mp h1
              subst h2
              have hrest := ih (assocSet acc ot.id resp) responses2 cs2 k hrec
                (fun o ho => hk o (List.mem_cons_of_mem _ ho))
              rw [hrest, assocGet?_assocSet_ne _ _ _ _ (hk ot (List.mem_cons_self _ _))]
          | error e => simp at h
      | error e =>
          simp only [reconcileObjectTypes, hstep, Prod.mk.injEq] at h
          simp at h

theorem reconcile_records (api : RemoteAPI) (app_id : String) :
    ∀ (ots : List ObjectTypeDefinition) (acc responses : List (String × Val))
      (cs : List ApiCall),
      reconcileObjectTypes api app_id acc ots = (.ok responses, cs) →
      (ots.map (fun o => o.id)).Nodup →
      ∀ ot ∈ ots, ∀ resp : Val, (reconcileStep api app_id ot).1 = .ok resp →
        assocGet? responses ot.id = some resp := by
  intro ots
  induction ots with
  | nil =>
      intro acc responses cs h hnd ot hot
      simp at hot
  | cons ot0 rest ih =>
      intro acc responses cs h hnd ot hot resp hresp
      simp only [List.map_cons, List.nodup_cons] at hnd
      obtain ⟨hnotin, hndrest⟩ := hnd
      rcases hstep : reconcileStep api app_id ot0 with ⟨r, cs1⟩
      cases r with
      | ok resp0 =>
          rcases hrec : reconcileObjectTypes api app_id (assocSet acc ot0.id resp0) rest
            with ⟨r2, cs2⟩
          simp only [reconcileObjectTypes, hstep, hrec, Prod.mk.injEq] at h
          cases r2 with
          | ok responses2 =>
              obtain ⟨h1, _⟩ := h
              have h2 : responses2 = responses := (Except.ok.injEq _ _).mp h1
              subst h2
              rcases List.mem_cons.mp hot with rfl | hmem
              · have hr : resp0 = resp := by
                  rw [hstep] at hresp
                  exact (Except.ok.injEq _ _).mp hresp
                subst hr
                have hne : ∀ o ∈ rest, o.id ≠ ot.id := by
                  intro o ho heq
                  exact hnotin (heq ▸ List.mem_map_of_mem (fun x => x.id) ho)
                have := reconcile_acc_preserved api app_id rest
                  (assocSet acc ot.id resp0) responses2 cs2 ot.id hrec hne
                rw [this, assocGet?_assocSet_self]
              · exact ih (assocSet acc ot0.id resp0) responses2 cs2 hrec hndrest ot hmem resp hresp
          | error e => simp at h
      | error e =>
          simp only [reconcileObjectTypes, hstep, Prod.mk.injEq] at h
          simp at h

end Gia

namespace Gia

/-- C4: in the reconciliation step for one object type, a get answered by
IGANotFoundError routes to exactly one add call and no update call, a get
returning a value routes to exactly one update call and no add call (each
call against the application id, carrying the definition as its dict), and
the loop records each successful outcome in the responses dict under the
object type id. -/
theorem object_type_reconciliation (api : RemoteAPI) (app_id : String)
    (ot : ObjectTypeDefinition) :
    (∀ (m : Val) (sc : Option Nat) (d : Val),
      api.get_object_type app_id ot.id = .error (.igaNotFoundError m sc d) →
      countCalls isAddOTCall (reconcileStep api app_id ot).2 = 1 ∧
      countCalls isUpdateOTCall (reconcileStep api app_id ot).2 = 0 ∧
      (∀ resp : Val, api.add_object_type app_id ot.to_dict = .ok resp →
        (reconcileStep api app_id ot).1 = .ok resp)) ∧
    (∀ (v resp : Val), api.get_object_type app_id ot.id = .ok v →
      api.update_object_type app_id ot.id ot.to_dict = .ok resp →
      countCalls isUpdateOTCall (reconcileStep api app_id ot).2 = 1 ∧
      countCalls isAddOTCall (reconcileStep api app_id ot).2 = 0 ∧
      (reconcileStep api app_id ot).1 = .ok resp) ∧
    (∀ (ots : List ObjectTypeDefinition) (responses : List (String × Val))
      (cs : List ApiCall) (resp : Val),
      reconcileObjectTypes api app_id [] ots = (.ok responses, cs) →
      (ots.map (fun o => o.id)).Nodup → ot ∈ ots →
      (reconcileStep api app_id ot).1 = .ok resp →
      assocGet? responses ot.id = some resp) := by
  refine ⟨?_, ?_, ?_⟩
  · intro m sc d hget
    have hnf : isNotFoundErr (.igaNotFoundError m sc d) = true := rfl
    cases ha : api.add_object_type app_id ot.to_dict with
    | ok r =>
        refine ⟨?_, ?_, ?_⟩ <;>
          simp [reconcileStep, hget, hnf, ha, countCalls, isAddOTCall, isUpdateOTCall]
    | error e =>
        refine ⟨?_, ?_, ?_⟩ <;>
          simp [reconcileStep, hget, hnf, ha, countCalls, isAddOTCall, isUpdateOTCall]
  · intro v resp hget hupd
    refine ⟨?_, ?_, ?_⟩ <;>
      simp [reconcileStep, hget, hupd, countCalls, isAddOTCall, isUpdateOTCall]
  · intro ots responses cs resp hrec hnd hmem hstep
    exact reconcile_records api app_id ots [] responses cs hrec hnd ot hmem resp hstep

/-- Witness for C4 at the sample environment: object type A exists remotely
and routes to update, object type B is NotFound and routes to add, and both
outcomes are recorded under their ids. -/
theorem object_type_reconciliation_witness :
    (countCalls isAddOTCall (reconcileStep sampleApi "app-1" sampleOTB).2 = 1 ∧
      countCalls isUpdateOTCall (reconcileStep sampleApi "app-1" sampleOTB).2 = 0 ∧
      (reconcileStep sampleApi "app-1" sampleOTB).1 =
        .ok (.obj [("added", sampleOTB.to_dict)])) ∧
    (countCalls isUpdateOTCall (reconcileStep sampleApi "app-1" sampleOTA).2 = 1 ∧
      countCalls isAddOTCall (reconcileStep sampleApi "app-1" sampleOTA).2 = 0 ∧
      (reconcileStep sampleApi "app-1" sampleOTA).1 = .ok (.obj [("updated", .str "A")])) ∧
    (∀ (responses : List (String × Val)) (cs : List ApiCall),
      reconcileObjectTypes sampleApi "app-1" [] [sampleOTA, sampleOTB] = (.ok responses, cs) →
      assocGet? responses "A" = some (.obj [("updated", .str "A")])) := by
  obtain ⟨hB1, _, hB3⟩ := object_type_reconciliation sampleApi "app-1" sampleOTB
  obtain ⟨_, hA2, hA3⟩ := object_type_reconciliation sampleApi "app-1" sampleOTA
  have hbnf := hB1 (.str "Resource not found") (some 404) (.list []) rfl
  have haok := hA2 (.obj [("id", .str "A")]) (.obj [("updated", .str "A")]) rfl rfl
  refine ⟨⟨hbnf.1, hbnf.2.1, hbnf.2.2 _ rfl⟩, ⟨haok.1, haok.2.1, haok.2.2⟩, ?_⟩
  intro responses cs hrec
  exact hA3 [sampleOTA, sampleOTB] responses cs (.obj [("updated", .str "A")]) hrec
    (by decide) (List.mem_cons_self _ _) haok.2.2

end Gia

namespace Gia

/-- C7 counterexample: the repository defines no configuration-error class.
The non-upsert push conflict at a concrete model and remote raises a plain
IGAClientError, the same exception class that a generic 500 response
produces, so the conflict cannot be distinguished from a generic client
error by class alone (without string matching). -/
theorem error_kinds_counterexample :
    (push sampleApp sampleApi false).result =
      .error (.igaClientError (.str (conflictMessage "TestApp" "app-1")) none (.list [])) ∧
    PyErr.cls (.igaClientError (.str (conflictMessage "TestApp" "app-1")) none (.list [])) =
      PyErrClass.igaClientErrorCls ∧
    handle_response ⟨500, false, "boom", none⟩ =
      .error (.igaClientError (.str "boom") (some 500) (.list [])) ∧
    PyErr.cls (.igaClientError (.str "boom") (some 500) (.list [])) =
      PyErrClass.igaClientErrorCls ∧
    ¬ (PyErr.cls (.igaClientError (.str (conflictMessage "TestApp" "app-1")) none (.list [])) ≠
        PyErr.cls (.igaClientError (.str "boom") (some 500) (.list []))) := by
  refine ⟨rfl, rfl, rfl, rfl, ?_⟩
  intro h
  exact h rfl

/-- C7 amended: the duplicate object-type id and the upload referencing an
undefined object type raise ValueError, an exception class distinct from the
IGAClientError, IGAAuthError and IGANotFoundError classes, so those two are
distinguishable without string matching; the non-upsert push conflict raises
the plain IGAClientError class, distinguishable from the auth and not-found
classes but identical to the class of generic client errors. -/
theorem error_kind_distinguishability :
    (∀ (app : DisconnectedApplication) (id ty : String) (props : List (String × Val)),
      assocHas app.object_types id = true →
      ∃ msg, (app.add_object_type id ty props).2 = .error (.valueError msg) ∧
        PyErr.cls (.valueError msg) ≠ PyErrClass.igaClientErrorCls ∧
        PyErr.cls (.valueError msg) ≠ PyErrClass.igaAuthErrorCls ∧
        PyErr.cls (.valueError msg) ≠ PyErrClass.igaNotFoundErrorCls) ∧
    (∀ (app : DisconnectedApplication) (fp ot : String),
      assocHas app.object_types ot = false →
      ∃ msg, (app.add_file_upload fp ot).2 = .error (.valueError msg) ∧
        PyErr.cls (.valueError msg) ≠ PyErrClass.igaClientErrorCls ∧
        PyErr.cls (.valueError msg) ≠ PyErrClass.igaAuthErrorCls ∧
        PyErr.cls (.valueError msg) ≠ PyErrClass.igaNotFoundErrorCls) ∧
    (∀ (api : RemoteAPI) (app : DisconnectedApplication) (exd : List (String × Val))
      (eid : String),
      api.find_by_name app.name = some (.obj exd) →
      assocGet? exd "id" = some (.str eid) →
      ∃ e, (push app api false).result = .error e ∧
        e.cls = PyErrClass.igaClientErrorCls ∧
        e.cls ≠ PyErrClass.igaAuthErrorCls ∧
        e.cls ≠ PyErrClass.igaNotFoundErrorCls) := by
  refine ⟨?_, ?_, ?_⟩
  · intro app id ty props h
    refine ⟨dupObjectTypeMessage id, ?_, by simp [PyErr.cls], by simp [PyErr.cls],
      by simp [PyErr.cls]⟩
    simp [DisconnectedApplication.add_object_type, h]
  · intro app fp ot h
    refine ⟨undefinedObjectTypeMessage ot, ?_, by simp [PyErr.cls], by simp [PyErr.cls],
      by simp [PyErr.cls]⟩
    simp [DisconnectedApplication.add_file_upload, h]
  · intro api app exd eid hfind hid
    have hsub : pySubscript (.obj exd) "id" = .ok (.str eid) := by
      simp [pySubscript, hid]
    have hfalsy : pyFalsy (.obj exd) = false := by
      cases exd with
      | nil => simp [assocGet?] at hid
      | cons p rest => rfl
    refine ⟨.igaClientError (.str (conflictMessage app.name eid)) none (.list []), ?_,
      rfl, by simp [PyErr.cls], by simp [PyErr.cls]⟩
    simp [push, hfind, hsub, hfalsy, pyStr]

/-- Witness for C7 at concrete inputs: the duplicate add and the undefined
upload on the sample model, and the conflict push against the sample
remote. -/
theorem error_kind_distinguishability_witness :
    (∃ msg, (sampleApp.add_object_type "__ACCOUNT__" "account" []).2 =
        .error (.valueError msg) ∧
      PyErr.cls (.valueError msg) ≠ PyErrClass.igaClientErrorCls ∧
      PyErr.cls (.valueError msg) ≠ PyErrClass.igaAuthErrorCls ∧
      PyErr.cls (.valueError msg) ≠ PyErrClass.igaNotFoundErrorCls) ∧
    (∃ msg, (sampleApp.add_file_upload "roles.csv" "Roles").2 =
        .error (.valueError msg) ∧
      PyErr.cls (.valueError msg) ≠ PyErrClass.igaClientErrorCls ∧
      PyErr.cls (.valueError msg) ≠ PyErrClass.igaAuthErrorCls ∧
      PyErr.cls (.valueError msg) ≠ PyErrClass.igaNotFoundErrorCls) ∧
    (∃ e, (push sampleApp sampleApi false).result = .error e ∧
      e.cls = PyErrClass.igaClientErrorCls ∧
      e.cls ≠ PyErrClass.igaAuthErrorCls ∧
      e.cls ≠ PyErrClass.igaNotFoundErrorCls) := by
  obtain ⟨h1, h2, h3⟩ := error_kind_distinguishability
  exact ⟨h1 sampleApp "__ACCOUNT__" "account" [] rfl,
    h2 sampleApp "roles.csv" "Roles" rfl,
    h3 sampleApi sampleApp [("id", Val.str "app-1")] "app-1" rfl rfl⟩

end Gia
